import Mathlib

/- Formal model of the email validation engine in
src/scripts/email_validator.py together with the log-replay statistics in
src/utils/logger.py.  Machine integers are modelled as Nat, Python floats as
exact rationals, Python strings as Lean strings (lists of characters), and
the network collaborators (DNS resolver, SMTP transport) as explicit script
parameters.  Python exceptions are modelled with Option/Except values. -/

/-- Embeds the `ValidationStatus` enum (email_validator.py lines 46-57). -/
inductive ValidationStatus
  | valid
  | invalidSyntax
  | noMx
  | mailboxNotFound
  | catchAll
  | connectionRefused
  | timeout
  | smtpError
  | greylisted
  | serverUnavailable
deriving DecidableEq

/-- Embeds the `ValidationResult` dataclass (email_validator.py lines 60-79).
Wall-clock response times are not modelled; the `response_time` field is kept
for shape and defaults to 0. -/
structure ValidationResult where
  email : String
  status : ValidationStatus
  details : String
  mx_host : String := ""
  attempts : Nat := 1
  response_time : ℚ := 0
deriving DecidableEq

/-- Embeds one per-host entry of `SMTPMonitor.checks`, the defaultdict value
initialised at email_validator.py lines 93-102. -/
structure HostStats where
  total : Nat := 0
  success : Nat := 0
  failures : Nat := 0
  timeouts : Nat := 0
  refused : Nat := 0
  total_response_time : ℚ := 0
deriving DecidableEq

/-- Embeds `SMTPMonitor.record_check` (email_validator.py lines 104-124) acting
on one host's statistics entry.  The `last_check` wall-clock field is not
modelled. -/
def record_check (s : HostStats) (success : Bool) (response_time : ℚ)
    (error_type : Option String) : HostStats :=
  let s1 := { s with total := s.total + 1,
                     total_response_time := s.total_response_time + response_time }
  if success then
    { s1 with success := s1.success + 1 }
  else
    let s2 := { s1 with failures := s1.failures + 1 }
    if error_type = some "timeout" then { s2 with timeouts := s2.timeouts + 1 }
    else if error_type = some "refused" then { s2 with refused := s2.refused + 1 }
    else s2

/-- Embeds `SMTPMonitor.needs_rotation` (email_validator.py lines 143-158):
below 10 recorded checks the answer is always `false`; otherwise the host needs
rotation when its success rate is below `threshold` or its timeout rate is
above 0.3. -/
def needs_rotation (s : HostStats) (threshold : ℚ := 1/2) : Bool :=
  if s.total < 10 then false
  else
    decide ((s.success : ℚ) / (s.total : ℚ) < threshold ∨
            (3 : ℚ) / 10 < (s.timeouts : ℚ) / (s.total : ℚ))

/-- C5: `needs_rotation` returns true exactly when the host has at least 10
recorded checks and (its success rate is below the threshold or its timeout
rate exceeds 0.3); in particular it is false below the minimum sample size. -/
theorem c5_needs_rotation_iff (s : HostStats) (threshold : ℚ) :
    needs_rotation s threshold = true ↔
      10 ≤ s.total ∧
        ((s.success : ℚ) / (s.total : ℚ) < threshold ∨
         (3 : ℚ) / 10 < (s.timeouts : ℚ) / (s.total : ℚ)) := by
  unfold needs_rotation
  split
  · rename_i h
    simp only [Bool.false_eq_true, false_iff]
    intro hc
    omega
  · rename_i h
    rw [decide_eq_true_iff]
    constructor
    · intro hd
      exact ⟨by omega, hd⟩
    · intro hc
      exact hc.2

/-- Lower-cases a string character by character; embeds Python's
`str.lower()` restricted to the ASCII range used by the source. -/
def lowerString (s : String) : String :=
  String.mk (s.data.map Char.toLower)

/-- Helper for the substring test: `startsWithL s p` holds when `p` is a
prefix of `s`. -/
def startsWithL : List Char → List Char → Bool
  | _, [] => true
  | [], _ :: _ => false
  | c :: s, d :: p => c == d && startsWithL s p

/-- Embeds Python's `pattern in text` substring operator on strings, as used
at email_validator.py line 274. -/
def containsSub : List Char → List Char → Bool
  | [], p => startsWithL [] p
  | c :: t, p => startsWithL (c :: t) p || containsSub t p

/-- Embeds `AsyncEmailValidator.CATCH_ALL_PATTERNS`
(email_validator.py lines 198-202). -/
def CATCH_ALL_PATTERNS : List String :=
  ["gmail.com", "googlemail.com",
   "outlook.com", "hotmail.com", "live.com",
   "protonmail.com", "icloud.com", "me.com"]

/-- Embeds `AsyncEmailValidator.is_catch_all_domain`
(email_validator.py lines 272-274):
`any(pattern in domain.lower() for pattern in self.CATCH_ALL_PATTERNS)`. -/
def is_catch_all_domain (domain : String) : Bool :=
  CATCH_ALL_PATTERNS.any (fun p => containsSub (lowerString domain).data p.data)

theorem startsWithL_iff (p : List Char) : ∀ s : List Char,
    startsWithL s p = true ↔ ∃ r, s = p ++ r := by
  induction p with
  | nil =>
    intro s
    simp [startsWithL]
  | cons d p ih =>
    intro s
    cases s with
    | nil => simp [startsWithL]
    | cons c t =>
      simp only [startsWithL, Bool.and_eq_true, beq_iff_eq, ih t]
      constructor
      · rintro ⟨rfl, r, rfl⟩
        exact ⟨r, rfl⟩
      · rintro ⟨r, hr⟩
        rw [List.cons_append] at hr
        injection hr with h1 h2
        exact ⟨h1, r, h2⟩

theorem containsSub_iff (p : List Char) : ∀ s : List Char,
    containsSub s p = true ↔ ∃ l r, s = l ++ p ++ r := by
  intro s
  induction s with
  | nil =>
    simp only [containsSub, startsWithL_iff]
    constructor
    · rintro ⟨r, hr⟩
      exact ⟨[], r, by simpa using hr⟩
    · rintro ⟨l, r, hr⟩
      refine ⟨r, ?_⟩
      rcases List.append_eq_nil.mp (List.append_eq_nil.mp hr.symm).1 with ⟨rfl, rfl⟩
      simpa using hr
  | cons c t ih =>
    simp only [containsSub, Bool.or_eq_true, startsWithL_iff, ih]
    constructor
    · rintro (⟨r, hr⟩ | ⟨l, r, hr⟩)
      · exact ⟨[], r, by simpa using hr⟩
      · exact ⟨c :: l, r, by simp [hr]⟩
    · rintro ⟨l, r, hr⟩
      cases l with
      | nil =>
        exact Or.inl ⟨r, by simpa using hr⟩
      | cons x l =>
        rw [List.cons_append, List.cons_append] at hr
        injection hr with h1 h2
        exact Or.inr ⟨l, r, by simp [h2]⟩

/-- C6 counterexample: the domain `xgmail.com` is flagged as catch-all even
though it is not a member of the configured provider list — the source tests
substring containment, not list membership. -/
theorem c6_counterexample :
    is_catch_all_domain "xgmail.com" = true ∧
      ("xgmail.com" ∈ CATCH_ALL_PATTERNS → False) := by
  constructor
  · decide
  · decide

/-- C6 amended: the catch-all classifier flags a domain exactly when some
configured pattern occurs as a contiguous substring of the lower-cased
domain. -/
theorem c6_substring_characterisation (domain : String) :
    is_catch_all_domain domain = true ↔
      ∃ p ∈ CATCH_ALL_PATTERNS,
        ∃ l r, (lowerString domain).data = l ++ p.data ++ r := by
  simp only [is_catch_all_domain, List.any_eq_true, containsSub_iff]

/-- Models the Python exceptions relevant to the probe: `socket.timeout` /
`TimeoutError`, `ConnectionRefusedError`, `smtplib.SMTPServerDisconnected`,
and any other unexpected exception carrying a message. -/
inductive Exc
  | socketTimeout
  | connectionRefused
  | smtpServerDisconnected
  | other (msg : String)
deriving DecidableEq

/-- Script of one SMTP server conversation: what each handshake step of
`_smtp_check_sync` observes.  `none` / `.ok` means the step completed,
`some e` / `.error e` means the step raised exception `e`.  `ehlo` yields the
greeting response code (line 423); `rcpt` yields the recipient-announcement
code and message (line 431). -/
structure TransportScript where
  connect : Option Exc
  ehlo : Except Exc Nat
  helo : Option Exc
  mail : Option Exc
  rcpt : Except Exc (Nat × String)

/-- Observable transport operations of one probe attempt. -/
inductive Ev
  | connected
  | greeted
  | mailSent
  | rcptDone
  | quitTried
  | closed
deriving DecidableEq

/-- Embeds the exception handlers of `_smtp_check_sync`
(email_validator.py lines 481-500): timeouts and refusals are re-raised for
the retry logic, a server disconnect and any other exception are mapped to an
`SMTP_ERROR` result. -/
def handleExc (email mxHost : String) (e : Exc) : Except Exc ValidationResult :=
  match e with
  | .socketTimeout => .error e
  | .connectionRefused => .error e
  | .smtpServerDisconnected =>
      .ok { email := email, status := .smtpError,
            details := "Server disconnected (anti-spam measure)",
            mx_host := mxHost }
  | .other msg =>
      .ok { email := email, status := .smtpError,
            details := "Error: " ++ msg,
            mx_host := mxHost }

/-- Embeds the response-code interpretation of `_smtp_check_sync`
(email_validator.py lines 440-479). -/
def classifyRcpt (email mxHost : String) (code : Nat) (message : String) :
    ValidationResult :=
  if code = 250 then
    { email := email, status := .valid,
      details := "Email accepted by server", mx_host := mxHost }
  else if code = 450 ∨ code = 451 ∨ code = 452 then
    { email := email, status := .greylisted,
      details := "Temporary failure (code " ++ toString code ++ "). Retry later.",
      mx_host := mxHost }
  else if 500 ≤ code then
    { email := email, status := .mailboxNotFound,
      details := "Mailbox rejected (code " ++ toString code ++ "): " ++ message.take 100,
      mx_host := mxHost }
  else
    { email := email, status := .smtpError,
      details := "Unexpected SMTP code: " ++ toString code,
      mx_host := mxHost }

/-- Embeds `_smtp_check_sync` (email_validator.py lines 409-506) over a
transport script: connect, EHLO (falling back to HELO when the EHLO code is
not 250), MAIL FROM, RCPT TO, a QUIT whose exceptions are swallowed (lines
434-438), then the classification; the `finally` block (lines 501-506) closes
the transport on every path, so every event trace ends with `closed`.
Returns the result (or re-raised exception) together with the event trace. -/
def smtp_check_sync (s : TransportScript) (email mxHost : String) :
    Except Exc ValidationResult × List Ev :=
  match s.connect with
  | some e => (handleExc email mxHost e, [Ev.closed])
  | none =>
    match s.ehlo with
    | .error e => (handleExc email mxHost e, [Ev.connected, Ev.closed])
    | .ok code =>
      match (if code ≠ 250 then s.helo else none) with
      | some e => (handleExc email mxHost e, [Ev.connected, Ev.closed])
      | none =>
        match s.mail with
        | some e =>
            (handleExc email mxHost e, [Ev.connected, Ev.greeted, Ev.closed])
        | none =>
          match s.rcpt with
          | .error e =>
              (handleExc email mxHost e,
               [Ev.connected, Ev.greeted, Ev.mailSent, Ev.closed])
          | .ok (rcode, msg) =>
              (.ok (classifyRcpt email mxHost rcode msg),
               [Ev.connected, Ev.greeted, Ev.mailSent, Ev.rcptDone,
                Ev.quitTried, Ev.closed])

/-- The greeting phase passes when EHLO answered and either the code was 250
or the HELO fallback did not raise. -/
def PassedGreet (s : TransportScript) : Prop :=
  ∃ c, s.ehlo = .ok c ∧ (c = 250 ∨ s.helo = none)

/-- The server disconnects unexpectedly at some state of the handshake. -/
def RaisesDisc (s : TransportScript) : Prop :=
  s.connect = some .smtpServerDisconnected ∨
  (s.connect = none ∧ s.ehlo = .error .smtpServerDisconnected) ∨
  (s.connect = none ∧ (∃ c, s.ehlo = .ok c ∧ c ≠ 250) ∧
     s.helo = some .smtpServerDisconnected) ∨
  (s.connect = none ∧ PassedGreet s ∧ s.mail = some .smtpServerDisconnected) ∨
  (s.connect = none ∧ PassedGreet s ∧ s.mail = none ∧
     s.rcpt = .error .smtpServerDisconnected)

/-- C3: when the recipient announcement completes with a response code, the
classification is 250 ↦ Valid, 450/451/452 ↦ Greylisted, ≥500 ↦
MailboxNotFound, anything else ↦ SmtpError; and an unexpected mid-session
server disconnect yields SmtpError. -/
theorem c3_rcpt_classification (email mxHost : String) :
    (∀ (s : TransportScript) (code : Nat) (msg : String),
      s.connect = none → PassedGreet s → s.mail = none →
      s.rcpt = .ok (code, msg) →
      (smtp_check_sync s email mxHost).1 = .ok (classifyRcpt email mxHost code msg) ∧
      (code = 250 → (classifyRcpt email mxHost code msg).status = .valid) ∧
      ((code = 450 ∨ code = 451 ∨ code = 452) →
        (classifyRcpt email mxHost code msg).status = .greylisted) ∧
      (500 ≤ code → (classifyRcpt email mxHost code msg).status = .mailboxNotFound) ∧
      (code ≠ 250 → ¬(code = 450 ∨ code = 451 ∨ code = 452) → code < 500 →
        (classifyRcpt email mxHost code msg).status = .smtpError)) ∧
    (∀ s : TransportScript, RaisesDisc s →
      ∃ r, (smtp_check_sync s email mxHost).1 = .ok r ∧ r.status = .smtpError) := by
  constructor
  · intro s code msg hc hg hm hr
    refine ⟨?_, ?_, ?_, ?_, ?_⟩
    · obtain ⟨c, hec, hgr⟩ := hg
      unfold smtp_check_sync
      rw [hc, hec, hm, hr]
      rcases hgr with h250 | hhelo
      · simp [h250]
      · rcases Decidable.em (c = 250) with h | h
        · simp [h]
        · simp [h, hhelo]
    · intro h250
      simp [classifyRcpt, h250]
    · intro hgrey
      have hne : code ≠ 250 := by rcases hgrey with h | h | h <;> omega
      simp [classifyRcpt, hne, hgrey]
    · intro hge
      have hne : code ≠ 250 := by omega
      have hng : ¬(code = 450 ∨ code = 451 ∨ code = 452) := by omega
      simp [classifyRcpt, hne, hng, hge]
    · intro hne hng hlt
      have hnge : ¬ 500 ≤ code := by omega
      simp [classifyRcpt, hne, hng, hnge]
  · intro s hd
    have hgoal : (smtp_check_sync s email mxHost).1 =
        handleExc email mxHost Exc.smtpServerDisconnected := by
      rcases hd with h | ⟨hc, he⟩ | ⟨hc, ⟨c, hec, hcne⟩, hh⟩ | ⟨hc, hg, hm⟩ |
        ⟨hc, hg, hm, hr⟩
      · unfold smtp_check_sync
        rw [h]
      · unfold smtp_check_sync
        rw [hc, he]
      · unfold smtp_check_sync
        rw [hc, hec]
        simp [hcne, hh]
      · obtain ⟨c, hec, hgr⟩ := hg
        unfold smtp_check_sync
        rw [hc, hec]
        rcases hgr with h250 | hhelo
        · simp [h250, hm]
        · rcases Decidable.em (c = 250) with h | h
          · simp [h, hm]
          · simp [h, hhelo, hm]
      · obtain ⟨c, hec, hgr⟩ := hg
        unfold smtp_check_sync
        rw [hc, hec]
        rcases hgr with h250 | hhelo
        · simp [h250, hm, hr]
        · rcases Decidable.em (c = 250) with h | h
          · simp [h, hm, hr]
          · simp [h, hhelo, hm, hr]
    rw [hgoal]
    exact ⟨_, rfl, rfl⟩

/-- Demonstration script: a clean handshake whose recipient announcement
answers 550. -/
def script550 : TransportScript :=
  { connect := none, ehlo := .ok 250, helo := none, mail := none,
    rcpt := .ok (550, "User unknown") }

/-- Witness for C3 at a concrete script: a clean handshake answering 550 at
RCPT is classified MailboxNotFound, and a disconnect at RCPT gives
SmtpError. -/
theorem c3_rcpt_classification_witness :
    (smtp_check_sync script550 "user@example.com" "mx.example.com").1 =
      .ok (classifyRcpt "user@example.com" "mx.example.com" 550 "User unknown") ∧
    (classifyRcpt "user@example.com" "mx.example.com" 550 "User unknown").status =
      .mailboxNotFound ∧
    ∃ r, (smtp_check_sync { script550 with rcpt := .error .smtpServerDisconnected }
            "user@example.com" "mx.example.com").1 = .ok r ∧ r.status = .smtpError := by
  have h := c3_rcpt_classification "user@example.com" "mx.example.com"
  obtain ⟨hmap, hdisc⟩ := h
  have h1 := hmap script550 550 "User unknown" rfl ⟨250, rfl, Or.inl rfl⟩ rfl rfl
  refine ⟨h1.1, h1.2.2.2.1 (by decide), ?_⟩
  exact hdisc _ (Or.inr (Or.inr (Or.inr (Or.inr
    ⟨rfl, ⟨250, rfl, Or.inl rfl⟩, rfl, rfl⟩))))

/-- C7: on every exit path of one probe attempt — completion, classified
rejection, or an exception at any handshake state — the transport is closed:
the trace of every run ends with `closed`, and in particular a connection
that was opened is always closed. -/
theorem c7_close_on_every_path (s : TransportScript) (email mxHost : String) :
    ((smtp_check_sync s email mxHost).2).getLast? = some Ev.closed ∧
      (Ev.connected ∈ (smtp_check_sync s email mxHost).2 →
        Ev.closed ∈ (smtp_check_sync s email mxHost).2) := by
  unfold smtp_check_sync
  rcases s with ⟨hc, he, hh, hm, hr⟩
  cases hc with
  | some e => exact ⟨rfl, fun _ => by simp⟩
  | none =>
    cases he with
    | error e => exact ⟨rfl, fun _ => by simp⟩
    | ok code =>
      dsimp only
      split
      · exact ⟨rfl, fun _ => by simp⟩
      · cases hm with
        | some e => exact ⟨rfl, fun _ => by simp⟩
        | none =>
          cases hr with
          | error e => exact ⟨rfl, fun _ => by simp⟩
          | ok pr => exact ⟨rfl, fun _ => by simp⟩

/-- What the retry wrapper `smtp_verify_with_retry` observes from one
executor invocation of `_smtp_check_sync` (email_validator.py lines 316-375):
a completed classified result, a re-raised timeout, a re-raised connection
refusal, or any other unexpected exception. -/
inductive AttemptOutcome
  | completed (r : ValidationResult)
  | timeoutErr
  | refusedErr
  | unexpected (msg : String)
deriving DecidableEq

/-- Only timeouts and connection refusals are retried
(email_validator.py lines 341-368). -/
def isRetryable : AttemptOutcome → Bool
  | .timeoutErr => true
  | .refusedErr => true
  | _ => false

/-- The exception stored in `last_error` by a retryable attempt failure. -/
def retryExc : AttemptOutcome → Option Exc
  | .timeoutErr => some Exc.socketTimeout
  | .refusedErr => some Exc.connectionRefused
  | _ => none

/-- The `error_type` tag passed to the monitor on the exhaustion path
(email_validator.py lines 343, 358, 372, 379), derived from `last_error`. -/
def errorTypeOf : Option Exc → Option String
  | some .socketTimeout => some "timeout"
  | some .connectionRefused => some "refused"
  | some _ => some "error"
  | none => none

/-- How the retry loop of `smtp_verify_with_retry` ended: an attempt returned
a classified result (line 339), or the loop was left with a `last_error`
(fall-through after the final retryable failure, or the `break` on an
unexpected exception at line 375). -/
inductive LoopExit
  | done (r : ValidationResult) (attempt : Nat)
  | exhausted (lastError : Option Exc)
deriving DecidableEq

/-- Observable outcome of the retry loop: its exit, the exponential-backoff
delays it slept (lines 351, 366), and how many attempts it actually made. -/
structure LoopOut where
  exit : LoopExit
  delays : List ℚ
  calls : Nat
deriving DecidableEq

/-- Embeds the retry loop `for attempt in range(1, max_retries + 1)`
(email_validator.py lines 309-375).  `attempt` is the current loop index,
the second argument the number of remaining iterations, and the third the
current `last_error`.  A retryable failure at `attempt < maxR` sleeps
`base * 2 ^ (attempt - 1)` before continuing. -/
def runAttempts (base : ℚ) (maxR : Nat) (probe : Nat → AttemptOutcome) :
    Nat → Nat → Option Exc → LoopOut
  | _, 0, le => { exit := .exhausted le, delays := [], calls := 0 }
  | attempt, n+1, _ =>
    match probe attempt with
    | .completed r => { exit := .done r attempt, delays := [], calls := 1 }
    | .timeoutErr =>
        let rest := runAttempts base maxR probe (attempt+1) n (some Exc.socketTimeout)
        { exit := rest.exit,
          delays := if attempt < maxR then base * 2 ^ (attempt - 1) :: rest.delays
                    else rest.delays,
          calls := rest.calls + 1 }
    | .refusedErr =>
        let rest := runAttempts base maxR probe (attempt+1) n (some Exc.connectionRefused)
        { exit := rest.exit,
          delays := if attempt < maxR then base * 2 ^ (attempt - 1) :: rest.delays
                    else rest.delays,
          calls := rest.calls + 1 }
    | .unexpected msg =>
        { exit := .exhausted (some (Exc.other msg)), delays := [], calls := 1 }

/-- Embeds Python's `str.split(sep)` for a one-character separator. -/
def splitOnChar (c : Char) : List Char → List (List Char)
  | [] => [[]]
  | x :: xs =>
    let r := splitOnChar c xs
    if x == c then [] :: r
    else
      match r with
      | [] => [[x]]
      | h :: t => (x :: h) :: t

/-- Embeds `email.split('@')[1]` (email_validator.py line 293). -/
def emailDomain (email : String) : String :=
  String.mk ((splitOnChar '@' email.data).getD 1 [])

/-- Observable outcome of one `smtp_verify_with_retry` call: the returned
record, the number of transport attempts actually made, the backoff delays
slept, and the `(mx_host, success, error_type)` tuples recorded into the
health monitor. -/
structure RetryOutcome where
  result : ValidationResult
  attemptsMade : Nat
  delays : List ℚ
  monitorRecords : List (String × Bool × Option String)
deriving DecidableEq

/-- Embeds the `isinstance`-based mapping of `last_error` to the final
status on the exhaustion path (email_validator.py lines 381-389). -/
def exhaustStatus : Option Exc → ValidationStatus
  | some .socketTimeout => .timeout
  | some .connectionRefused => .connectionRefused
  | _ => .serverUnavailable

/-- The detail text produced on the exhaustion path
(email_validator.py lines 383, 386, 389). -/
def exhaustDetails (maxR : Nat) : Option Exc → String
  | some .socketTimeout => "Timeout after " ++ toString maxR ++ " attempts"
  | some .connectionRefused => "Connection refused (port 25 blocked or rate limited)"
  | some (.other m) => "Server unavailable: " ++ m
  | some .smtpServerDisconnected =>
      "Server unavailable: Connection unexpectedly closed"
  | none => "Server unavailable: None"

/-- Embeds `smtp_verify_with_retry` (email_validator.py lines 276-407):
catch-all domains short-circuit before the loop (lines 296-303, recording
nothing to the monitor); a completed attempt records `(mx_host, True)` and
returns with `attempts` set to the loop index (lines 323-339); exhaustion or
an unexpected exception records `(mx_host, False, error_type)` and maps
`last_error` to Timeout / ConnectionRefused / ServerUnavailable with
`attempts = max_retries` (lines 377-407). -/
def smtp_verify_with_retry (maxR : Nat) (base : ℚ) (email mxHost : String)
    (probe : Nat → AttemptOutcome) : RetryOutcome :=
  let domain := emailDomain email
  if is_catch_all_domain domain then
    { result := { email := email, status := .catchAll,
                  details := "Provider " ++ domain ++ " uses catch-all policy",
                  mx_host := mxHost },
      attemptsMade := 0, delays := [], monitorRecords := [] }
  else
    let lo := runAttempts base maxR probe 1 maxR none
    match lo.exit with
    | .done r attempt =>
        { result := { r with attempts := attempt },
          attemptsMade := lo.calls, delays := lo.delays,
          monitorRecords := [(mxHost, true, none)] }
    | .exhausted le =>
        { result :=
            { email := email,
              status := exhaustStatus le,
              details := exhaustDetails maxR le,
              mx_host := mxHost, attempts := maxR },
          attemptsMade := lo.calls, delays := lo.delays,
          monitorRecords := [(mxHost, false, errorTypeOf le)] }

theorem runAttempts_calls_le (base : ℚ) (maxR : Nat) (probe : Nat → AttemptOutcome) :
    ∀ (n attempt : Nat) (le : Option Exc),
      (runAttempts base maxR probe attempt n le).calls ≤ n := by
  intro n
  induction n with
  | zero => intro attempt le; simp [runAttempts]
  | succ n ih =>
    intro attempt le
    simp only [runAttempts]
    cases hp : probe attempt with
    | completed r => simp
    | timeoutErr =>
      dsimp only
      exact Nat.succ_le_succ (ih (attempt + 1) (some Exc.socketTimeout))
    | refusedErr =>
      dsimp only
      exact Nat.succ_le_succ (ih (attempt + 1) (some Exc.connectionRefused))
    | unexpected msg => simp

theorem runAttempts_calls_pos (base : ℚ) (maxR : Nat) (probe : Nat → AttemptOutcome)
    (n attempt : Nat) (le : Option Exc) (hn : 1 ≤ n) :
    1 ≤ (runAttempts base maxR probe attempt n le).calls := by
  cases n with
  | zero => omega
  | succ n =>
    simp only [runAttempts]
    cases hp : probe attempt with
    | completed r => simp
    | timeoutErr => dsimp only; omega
    | refusedErr => dsimp only; omega
    | unexpected msg => simp

theorem runAttempts_prefix_retryable (base : ℚ) (maxR : Nat)
    (probe : Nat → AttemptOutcome) :
    ∀ (n attempt : Nat) (le : Option Exc) (k : Nat), attempt ≤ k →
      k + 1 < attempt + (runAttempts base maxR probe attempt n le).calls →
      isRetryable (probe k) = true := by
  intro n
  induction n with
  | zero =>
    intro attempt le k hk hlt
    simp [runAttempts] at hlt
    omega
  | succ n ih =>
    intro attempt le k hk hlt
    simp only [runAttempts] at hlt
    cases hp : probe attempt with
    | completed r => rw [hp] at hlt; simp at hlt; omega
    | timeoutErr =>
      rw [hp] at hlt
      dsimp only at hlt
      rcases Nat.lt_or_ge attempt k with h | h
      · exact ih (attempt + 1) (some Exc.socketTimeout) k (by omega) (by omega)
      · have : attempt = k := by omega
        rw [← this, hp]
        rfl
    | refusedErr =>
      rw [hp] at hlt
      dsimp only at hlt
      rcases Nat.lt_or_ge attempt k with h | h
      · exact ih (attempt + 1) (some Exc.connectionRefused) k (by omega) (by omega)
      · have : attempt = k := by omega
        rw [← this, hp]
        rfl
    | unexpected msg => rw [hp] at hlt; simp at hlt; omega

theorem runAttempts_early_stop (base : ℚ) (maxR : Nat)
    (probe : Nat → AttemptOutcome) :
    ∀ (n attempt : Nat) (le : Option Exc) (c : Nat),
      (runAttempts base maxR probe attempt n le).calls = c + 1 →
      c + 1 < n → isRetryable (probe (attempt + c)) = false := by
  intro n
  induction n with
  | zero =>
    intro attempt le c hc hlt
    omega
  | succ n ih =>
    intro attempt le c hc hlt
    simp only [runAttempts] at hc
    cases hp : probe attempt with
    | completed r =>
      rw [hp] at hc
      simp at hc
      have : c = 0 := by omega
      subst this
      rw [Nat.add_zero, hp]
      rfl
    | timeoutErr =>
      rw [hp] at hc
      dsimp only at hc
      cases c with
      | zero =>
        exfalso
        have := runAttempts_calls_pos base maxR probe n (attempt + 1)
          (some Exc.socketTimeout) (by omega)
        omega
      | succ c =>
        have := ih (attempt + 1) (some Exc.socketTimeout) c (by omega) (by omega)
        rw [show attempt + (c + 1) = attempt + 1 + c by omega]
        exact this
    | refusedErr =>
      rw [hp] at hc
      dsimp only at hc
      cases c with
      | zero =>
        exfalso
        have := runAttempts_calls_pos base maxR probe n (attempt + 1)
          (some Exc.connectionRefused) (by omega)
        omega
      | succ c =>
        have := ih (attempt + 1) (some Exc.connectionRefused) c (by omega) (by omega)
        rw [show attempt + (c + 1) = attempt + 1 + c by omega]
        exact this
    | unexpected msg =>
      rw [hp] at hc
      simp at hc
      have : c = 0 := by omega
      subst this
      rw [Nat.add_zero, hp]
      rfl

theorem runAttempts_stop_calls (base : ℚ) (maxR : Nat)
    (probe : Nat → AttemptOutcome) :
    ∀ (n attempt : Nat) (le : Option Exc) (k : Nat), attempt ≤ k →
      k < attempt + n →
      (∀ j, attempt ≤ j → j < k → isRetryable (probe j) = true) →
      isRetryable (probe k) = false →
      (runAttempts base maxR probe attempt n le).calls = k + 1 - attempt := by
  intro n
  induction n with
  | zero =>
    intro attempt le k hk hlt
    omega
  | succ n ih =>
    intro attempt le k hk hlt hpre hstop
    rcases Nat.lt_or_ge attempt k with h | h
    · have hra : isRetryable (probe attempt) = true := hpre attempt (Nat.le_refl _) h
      simp only [runAttempts]
      cases hp : probe attempt with
      | completed r => rw [hp] at hra; simp [isRetryable] at hra
      | timeoutErr =>
        dsimp only
        have := ih (attempt + 1) (some Exc.socketTimeout) k (by omega) (by omega)
          (fun j hj1 hj2 => hpre j (by omega) hj2) hstop
        omega
      | refusedErr =>
        dsimp only
        have := ih (attempt + 1) (some Exc.connectionRefused) k (by omega) (by omega)
          (fun j hj1 hj2 => hpre j (by omega) hj2) hstop
        omega
      | unexpected msg => rw [hp] at hra; simp [isRetryable] at hra
    · have hek : attempt = k := by omega
      subst hek
      simp only [runAttempts]
      cases hp : probe attempt with
      | completed r => simp
      | timeoutErr => rw [hp] at hstop; simp [isRetryable] at hstop
      | refusedErr => rw [hp] at hstop; simp [isRetryable] at hstop
      | unexpected msg => simp

theorem runAttempts_done_exit (base : ℚ) (maxR : Nat)
    (probe : Nat → AttemptOutcome) :
    ∀ (n attempt : Nat) (le : Option Exc) (k : Nat) (r : ValidationResult),
      attempt ≤ k → k < attempt + n →
      (∀ j, attempt ≤ j → j < k → isRetryable (probe j) = true) →
      probe k = .completed r →
      (runAttempts base maxR probe attempt n le).exit = .done r k := by
  intro n
  induction n with
  | zero =>
    intro attempt le k r hk hlt
    omega
  | succ n ih =>
    intro attempt le k r hk hlt hpre hdone
    rcases Nat.lt_or_ge attempt k with h | h
    · have hra : isRetryable (probe attempt) = true := hpre attempt (Nat.le_refl _) h
      simp only [runAttempts]
      cases hp : probe attempt with
      | completed r' => rw [hp] at hra; simp [isRetryable] at hra
      | timeoutErr =>
        dsimp only
        exact ih (attempt + 1) (some Exc.socketTimeout) k r (by omega) (by omega)
          (fun j hj1 hj2 => hpre j (by omega) hj2) hdone
      | refusedErr =>
        dsimp only
        exact ih (attempt + 1) (some Exc.connectionRefused) k r (by omega) (by omega)
          (fun j hj1 hj2 => hpre j (by omega) hj2) hdone
      | unexpected msg => rw [hp] at hra; simp [isRetryable] at hra
    · have hek : attempt = k := by omega
      subst hek
      simp only [runAttempts]
      rw [hdone]

theorem runAttempts_unexp_exit (base : ℚ) (maxR : Nat)
    (probe : Nat → AttemptOutcome) :
    ∀ (n attempt : Nat) (le : Option Exc) (k : Nat) (msg : String),
      attempt ≤ k → k < attempt + n →
      (∀ j, attempt ≤ j → j < k → isRetryable (probe j) = true) →
      probe k = .unexpected msg →
      (runAttempts base maxR probe attempt n le).exit =
        .exhausted (some (Exc.other msg)) := by
  intro n
  induction n with
  | zero =>
    intro attempt le k msg hk hlt
    omega
  | succ n ih =>
    intro attempt le k msg hk hlt hpre hu
    rcases Nat.lt_or_ge attempt k with h | h
    · have hra : isRetryable (probe attempt) = true := hpre attempt (Nat.le_refl _) h
      simp only [runAttempts]
      cases hp : probe attempt with
      | completed r' => rw [hp] at hra; simp [isRetryable] at hra
      | timeoutErr =>
        dsimp only
        exact ih (attempt + 1) (some Exc.socketTimeout) k msg (by omega) (by omega)
          (fun j hj1 hj2 => hpre j (by omega) hj2) hu
      | refusedErr =>
        dsimp only
        exact ih (attempt + 1) (some Exc.connectionRefused) k msg (by omega) (by omega)
          (fun j hj1 hj2 => hpre j (by omega) hj2) hu
      | unexpected msg' => rw [hp] at hra; simp [isRetryable] at hra
    · have hek : attempt = k := by omega
      subst hek
      simp only [runAttempts]
      rw [hu]

theorem runAttempts_all_retry (base : ℚ) (maxR : Nat)
    (probe : Nat → AttemptOutcome) :
    ∀ (m attempt : Nat) (le : Option Exc),
      (∀ k, attempt ≤ k → k ≤ attempt + m → isRetryable (probe k) = true) →
      (runAttempts base maxR probe attempt (m + 1) le).exit =
        .exhausted (retryExc (probe (attempt + m))) := by
  intro m
  induction m with
  | zero =>
    intro attempt le hall
    have hra : isRetryable (probe attempt) = true :=
      hall attempt (Nat.le_refl _) (by omega)
    simp only [runAttempts]
    cases hp : probe attempt with
    | completed r => rw [hp] at hra; simp [isRetryable] at hra
    | timeoutErr =>
      dsimp only
      rw [Nat.add_zero, hp]
      rfl
    | refusedErr =>
      dsimp only
      rw [Nat.add_zero, hp]
      rfl
    | unexpected msg => rw [hp] at hra; simp [isRetryable] at hra
  | succ m ih =>
    intro attempt le hall
    have hra : isRetryable (probe attempt) = true :=
      hall attempt (Nat.le_refl _) (by omega)
    simp only [runAttempts]
    cases hp : probe attempt with
    | completed r => rw [hp] at hra; simp [isRetryable] at hra
    | timeoutErr =>
      dsimp only
      rw [show attempt + (m + 1) = attempt + 1 + m by omega]
      exact ih (attempt + 1) (some Exc.socketTimeout)
        (fun k hk1 hk2 => hall k (by omega) (by omega))
    | refusedErr =>
      dsimp only
      rw [show attempt + (m + 1) = attempt + 1 + m by omega]
      exact ih (attempt + 1) (some Exc.connectionRefused)
        (fun k hk1 hk2 => hall k (by omega) (by omega))
    | unexpected msg => rw [hp] at hra; simp [isRetryable] at hra

theorem runAttempts_delays (base : ℚ) (maxR : Nat)
    (probe : Nat → AttemptOutcome) :
    ∀ (n attempt : Nat) (le : Option Exc), attempt + n = maxR + 1 → 1 ≤ attempt →
      (runAttempts base maxR probe attempt n le).delays =
        (List.range' attempt ((runAttempts base maxR probe attempt n le).calls - 1)).map
          (fun j => base * 2 ^ (j - 1)) := by
  intro n
  induction n with
  | zero =>
    intro attempt le hinv hatt
    simp [runAttempts]
  | succ n ih =>
    intro attempt le hinv hatt
    simp only [runAttempts]
    cases hp : probe attempt with
    | completed r => simp
    | timeoutErr =>
      dsimp only
      have hlt : attempt < maxR ↔ 1 ≤ n := by omega
      rcases Nat.lt_or_ge attempt maxR with h | h
      · rw [if_pos h]
        have hcp := runAttempts_calls_pos base maxR probe n (attempt + 1)
          (some Exc.socketTimeout) (hlt.mp h)
        have hih := ih (attempt + 1) (some Exc.socketTimeout) (by omega) (by omega)
        rw [hih]
        rw [show (runAttempts base maxR probe (attempt + 1) n
              (some Exc.socketTimeout)).calls + 1 - 1 =
            ((runAttempts base maxR probe (attempt + 1) n
              (some Exc.socketTimeout)).calls - 1) + 1 by omega]
        rw [List.range'_succ]
        simp
      · rw [if_neg (by omega)]
        have hn0 : n = 0 := by omega
        subst hn0
        simp [runAttempts]
    | refusedErr =>
      dsimp only
      have hlt : attempt < maxR ↔ 1 ≤ n := by omega
      rcases Nat.lt_or_ge attempt maxR with h | h
      · rw [if_pos h]
        have hcp := runAttempts_calls_pos base maxR probe n (attempt + 1)
          (some Exc.connectionRefused) (hlt.mp h)
        have hih := ih (attempt + 1) (some Exc.connectionRefused) (by omega) (by omega)
        rw [hih]
        rw [show (runAttempts base maxR probe (attempt + 1) n
              (some Exc.connectionRefused)).calls + 1 - 1 =
            ((runAttempts base maxR probe (attempt + 1) n
              (some Exc.connectionRefused)).calls - 1) + 1 by omega]
        rw [List.range'_succ]
        simp
      · rw [if_neg (by omega)]
        have hn0 : n = 0 := by omega
        subst hn0
        simp [runAttempts]
    | unexpected msg => simp

theorem smtp_verify_catchall (maxR : Nat) (base : ℚ) (email mxHost : String)
    (probe : Nat → AttemptOutcome)
    (hca : is_catch_all_domain (emailDomain email) = true) :
    smtp_verify_with_retry maxR base email mxHost probe =
      { result := { email := email, status := .catchAll,
                    details := "Provider " ++ emailDomain email ++
                      " uses catch-all policy",
                    mx_host := mxHost },
        attemptsMade := 0, delays := [], monitorRecords := [] } := by
  simp only [smtp_verify_with_retry, hca, if_true]

theorem smtp_verify_done (maxR : Nat) (base : ℚ) (email mxHost : String)
    (probe : Nat → AttemptOutcome) (r : ValidationResult) (k : Nat)
    (hca : is_catch_all_domain (emailDomain email) = false)
    (hex : (runAttempts base maxR probe 1 maxR none).exit = .done r k) :
    (smtp_verify_with_retry maxR base email mxHost probe).result =
      { r with attempts := k } ∧
    (smtp_verify_with_retry maxR base email mxHost probe).monitorRecords =
      [(mxHost, true, none)] := by
  simp only [smtp_verify_with_retry, hca, Bool.false_eq_true, if_false]
  split
  · rename_i r' k' heq
    have h2 := hex.symm.trans heq
    injection h2 with h3 h4
    subst h3
    subst h4
    exact ⟨rfl, rfl⟩
  · rename_i le' heq
    have h2 := hex.symm.trans heq
    simp at h2

theorem smtp_verify_exhausted (maxR : Nat) (base : ℚ) (email mxHost : String)
    (probe : Nat → AttemptOutcome) (le : Option Exc)
    (hca : is_catch_all_domain (emailDomain email) = false)
    (hex : (runAttempts base maxR probe 1 maxR none).exit = .exhausted le) :
    (smtp_verify_with_retry maxR base email mxHost probe).result.attempts = maxR ∧
    (smtp_verify_with_retry maxR base email mxHost probe).result.status =
      exhaustStatus le ∧
    (smtp_verify_with_retry maxR base email mxHost probe).monitorRecords =
      [(mxHost, false, errorTypeOf le)] := by
  simp only [smtp_verify_with_retry, hca, Bool.false_eq_true, if_false]
  split
  · rename_i r' k' heq
    have h2 := hex.symm.trans heq
    simp at h2
  · rename_i le' heq
    have h2 := hex.symm.trans heq
    injection h2 with h3
    subst h3
    exact ⟨rfl, rfl, rfl⟩

theorem smtp_verify_loop_obs (maxR : Nat) (base : ℚ) (email mxHost : String)
    (probe : Nat → AttemptOutcome)
    (hca : is_catch_all_domain (emailDomain email) = false) :
    (smtp_verify_with_retry maxR base email mxHost probe).attemptsMade =
      (runAttempts base maxR probe 1 maxR none).calls ∧
    (smtp_verify_with_retry maxR base email mxHost probe).delays =
      (runAttempts base maxR probe 1 maxR none).delays := by
  simp only [smtp_verify_with_retry, hca, Bool.false_eq_true, if_false]
  split
  · exact ⟨rfl, rfl⟩
  · exact ⟨rfl, rfl⟩

theorem runAttempts_full_exhaust (base : ℚ) (maxR : Nat)
    (probe : Nat → AttemptOutcome) (hmax : 1 ≤ maxR)
    (hall : ∀ k, 1 ≤ k → k ≤ maxR → isRetryable (probe k) = true) :
    (runAttempts base maxR probe 1 maxR none).exit =
      .exhausted (retryExc (probe maxR)) := by
  have h2 := runAttempts_all_retry base maxR probe (maxR - 1) 1 none
    (fun k hk1 hk2 => hall k hk1 (by omega))
  rw [show (maxR - 1) + 1 = maxR by omega, show 1 + (maxR - 1) = maxR by omega] at h2
  exact h2

/-- C1 counterexample: with `max_retries = 3` and a transport that times out
on every attempt, the returned record has `attempts = 3` but status Timeout,
not ServerUnavailable (email_validator.py lines 381-383). -/
theorem c1_counterexample :
    (smtp_verify_with_retry 3 2 "user@example.com" "mx.example.com"
        (fun _ => AttemptOutcome.timeoutErr)).result.status =
      ValidationStatus.timeout ∧
    (smtp_verify_with_retry 3 2 "user@example.com" "mx.example.com"
        (fun _ => AttemptOutcome.timeoutErr)).result.attempts = 3 ∧
    ((smtp_verify_with_retry 3 2 "user@example.com" "mx.example.com"
        (fun _ => AttemptOutcome.timeoutErr)).result.status =
      ValidationStatus.serverUnavailable → False) := by
  refine ⟨by decide, by decide, by decide⟩

/-- C1 amended: when every attempt up to the configured maximum fails with a
retryable failure, the record has `attempts = max_retries`, and its status is
Timeout when the final failure was a timeout and ConnectionRefused when it
was a refusal — never ServerUnavailable, which the source reserves for
unexpected errors. -/
theorem c1_exhaustion_classification (maxR : Nat) (base : ℚ)
    (email mxHost : String) (probe : Nat → AttemptOutcome) (hmax : 1 ≤ maxR)
    (hca : is_catch_all_domain (emailDomain email) = false)
    (hall : ∀ k, 1 ≤ k → k ≤ maxR → isRetryable (probe k) = true) :
    (smtp_verify_with_retry maxR base email mxHost probe).result.attempts = maxR ∧
    (probe maxR = AttemptOutcome.timeoutErr →
      (smtp_verify_with_retry maxR base email mxHost probe).result.status =
        ValidationStatus.timeout) ∧
    (probe maxR = AttemptOutcome.refusedErr →
      (smtp_verify_with_retry maxR base email mxHost probe).result.status =
        ValidationStatus.connectionRefused) ∧
    (smtp_verify_with_retry maxR base email mxHost probe).result.status ≠
      ValidationStatus.serverUnavailable := by
  have hex := runAttempts_full_exhaust base maxR probe hmax hall
  have h := smtp_verify_exhausted maxR base email mxHost probe _ hca hex
  refine ⟨h.1, ?_, ?_, ?_⟩
  · intro hp
    rw [h.2.1, hp]
    decide
  · intro hp
    rw [h.2.1, hp]
    decide
  · rw [h.2.1]
    have hrm := hall maxR hmax (Nat.le_refl _)
    cases hp : probe maxR with
    | completed r => rw [hp] at hrm; simp [isRetryable] at hrm
    | timeoutErr => decide
    | refusedErr => decide
    | unexpected msg => rw [hp] at hrm; simp [isRetryable] at hrm

/-- Witness for the amended C1 at a concrete input: three timeouts with
`max_retries = 3` give `attempts = 3` and status Timeout. -/
theorem c1_exhaustion_classification_witness :
    (smtp_verify_with_retry 3 2 "user@example.com" "mx.example.com"
        (fun _ => AttemptOutcome.timeoutErr)).result.attempts = 3 ∧
    (smtp_verify_with_retry 3 2 "user@example.com" "mx.example.com"
        (fun _ => AttemptOutcome.timeoutErr)).result.status =
      ValidationStatus.timeout := by
  have h := c1_exhaustion_classification 3 2 "user@example.com" "mx.example.com"
    (fun _ => AttemptOutcome.timeoutErr) (by decide) (by decide)
    (fun k hk1 hk2 => rfl)
  exact ⟨h.1, h.2.1 rfl⟩

/-- C2 counterexample: a handshake that completes with a MailboxNotFound
verdict is recorded into the health monitor with `success = True`
(email_validator.py line 325), although the outcome is neither Valid nor
CatchAll — so the recorded success flag is not `outcome ∈ {Valid, CatchAll}`. -/
theorem c2_counterexample :
    (smtp_verify_with_retry 3 2 "user@example.com" "mx.example.com"
        (fun _ => AttemptOutcome.completed
          (classifyRcpt "user@example.com" "mx.example.com" 550 "User unknown"))).monitorRecords =
      [("mx.example.com", true, none)] ∧
    (smtp_verify_with_retry 3 2 "user@example.com" "mx.example.com"
        (fun _ => AttemptOutcome.completed
          (classifyRcpt "user@example.com" "mx.example.com" 550 "User unknown"))).result.status =
      ValidationStatus.mailboxNotFound ∧
    (ValidationStatus.mailboxNotFound = ValidationStatus.valid ∨
      ValidationStatus.mailboxNotFound = ValidationStatus.catchAll → False) := by
  refine ⟨by decide, by decide, by decide⟩

/-- C2 amended: the catch-all short-circuit records no monitor entry at all;
every other terminal call records exactly one entry, whose success flag is
true for any completed handshake regardless of its classification (including
MailboxNotFound, Greylisted, SmtpError) and false — with a subtype tag
timeout / refused / error — on retry exhaustion or an unexpected
exception. -/
theorem c2_monitor_records (maxR : Nat) (base : ℚ) (email mxHost : String)
    (probe : Nat → AttemptOutcome) :
    (is_catch_all_domain (emailDomain email) = true →
      (smtp_verify_with_retry maxR base email mxHost probe).monitorRecords = []) ∧
    (is_catch_all_domain (emailDomain email) = false →
      (∀ k r, 1 ≤ k → k ≤ maxR →
        (∀ j, 1 ≤ j → j < k → isRetryable (probe j) = true) →
        probe k = AttemptOutcome.completed r →
        (smtp_verify_with_retry maxR base email mxHost probe).monitorRecords =
          [(mxHost, true, none)]) ∧
      (∀ k msg, 1 ≤ k → k ≤ maxR →
        (∀ j, 1 ≤ j → j < k → isRetryable (probe j) = true) →
        probe k = AttemptOutcome.unexpected msg →
        (smtp_verify_with_retry maxR base email mxHost probe).monitorRecords =
          [(mxHost, false, some "error")]) ∧
      (1 ≤ maxR →
        (∀ k, 1 ≤ k → k ≤ maxR → isRetryable (probe k) = true) →
        (smtp_verify_with_retry maxR base email mxHost probe).monitorRecords =
          [(mxHost, false, errorTypeOf (retryExc (probe maxR)))])) := by
  constructor
  · intro hca
    rw [smtp_verify_catchall maxR base email mxHost probe hca]
  · intro hca
    refine ⟨?_, ?_, ?_⟩
    · intro k r hk1 hk2 hpre hdone
      have hex := runAttempts_done_exit base maxR probe maxR 1 none k r hk1
        (by omega) hpre hdone
      exact (smtp_verify_done maxR base email mxHost probe r k hca hex).2
    · intro k msg hk1 hk2 hpre hu
      have hex := runAttempts_unexp_exit base maxR probe maxR 1 none k msg hk1
        (by omega) hpre hu
      have h := smtp_verify_exhausted maxR base email mxHost probe
        (some (Exc.other msg)) hca hex
      exact h.2.2
    · intro hmax hall
      have hex := runAttempts_full_exhaust base maxR probe hmax hall
      exact (smtp_verify_exhausted maxR base email mxHost probe _ hca hex).2.2

/-- Witness for the amended C2 at concrete inputs: a catch-all address
records nothing, and exhausted timeouts record one failure tagged
`timeout`. -/
theorem c2_monitor_records_witness :
    (smtp_verify_with_retry 3 2 "user@gmail.com" "mx.gmail.com"
        (fun _ => AttemptOutcome.timeoutErr)).monitorRecords = [] ∧
    (smtp_verify_with_retry 3 2 "user@example.com" "mx.example.com"
        (fun _ => AttemptOutcome.timeoutErr)).monitorRecords =
      [("mx.example.com", false, some "timeout")] := by
  constructor
  · exact (c2_monitor_records 3 2 "user@gmail.com" "mx.gmail.com"
      (fun _ => AttemptOutcome.timeoutErr)).1 (by decide)
  · exact ((c2_monitor_records 3 2 "user@example.com" "mx.example.com"
      (fun _ => AttemptOutcome.timeoutErr)).2 (by decide)).2.2 (by decide)
      (fun k hk1 hk2 => rfl)

/-- C4: only timeouts and connection refusals trigger a retry, up to the
configured maximum attempt count; the delays slept are exactly
`base * 2 ^ (attempt - 1)` for each failed attempt that was followed by a
retry; and any attempt whose outcome is not retryable (a completed
classification or an unexpected exception) ends the call at that attempt
with no further attempts. -/
theorem c4_retry_policy (maxR : Nat) (base : ℚ) (email mxHost : String)
    (probe : Nat → AttemptOutcome) (hmax : 1 ≤ maxR)
    (hca : is_catch_all_domain (emailDomain email) = false) :
    1 ≤ (smtp_verify_with_retry maxR base email mxHost probe).attemptsMade ∧
    (smtp_verify_with_retry maxR base email mxHost probe).attemptsMade ≤ maxR ∧
    (∀ k, 1 ≤ k →
      k + 1 ≤ (smtp_verify_with_retry maxR base email mxHost probe).attemptsMade →
      isRetryable (probe k) = true) ∧
    (∀ k, 1 ≤ k → k ≤ maxR →
      (∀ j, 1 ≤ j → j < k → isRetryable (probe j) = true) →
      isRetryable (probe k) = false →
      (smtp_verify_with_retry maxR base email mxHost probe).attemptsMade = k) ∧
    (smtp_verify_with_retry maxR base email mxHost probe).delays =
      (List.range' 1
        ((smtp_verify_with_retry maxR base email mxHost probe).attemptsMade - 1)).map
        (fun j => base * 2 ^ (j - 1)) := by
  obtain ⟨hobs1, hobs2⟩ := smtp_verify_loop_obs maxR base email mxHost probe hca
  rw [hobs1, hobs2]
  refine ⟨?_, ?_, ?_, ?_, ?_⟩
  · exact runAttempts_calls_pos base maxR probe maxR 1 none hmax
  · exact runAttempts_calls_le base maxR probe maxR 1 none
  · intro k hk1 hk2
    exact runAttempts_prefix_retryable base maxR probe maxR 1 none k hk1 (by omega)
  · intro k hk1 hk2 hpre hstop
    have h := runAttempts_stop_calls base maxR probe maxR 1 none k hk1 (by omega)
      hpre hstop
    omega
  · exact runAttempts_delays base maxR probe maxR 1 none (by omega) (by omega)

/-- Witness for C4 at a concrete input: a timeout on attempt 1 followed by a
definitive completion on attempt 2 ends the call after exactly 2 attempts
(within the bound of 3). -/
theorem c4_retry_policy_witness :
    (smtp_verify_with_retry 3 2 "user@example.com" "mx.example.com"
        (fun k => if k = 1 then AttemptOutcome.timeoutErr
                  else AttemptOutcome.completed
                    (classifyRcpt "user@example.com" "mx.example.com" 550 "User unknown"))).attemptsMade = 2 ∧
    (smtp_verify_with_retry 3 2 "user@example.com" "mx.example.com"
        (fun k => if k = 1 then AttemptOutcome.timeoutErr
                  else AttemptOutcome.completed
                    (classifyRcpt "user@example.com" "mx.example.com" 550 "User unknown"))).attemptsMade ≤ 3 := by
  have h := c4_retry_policy 3 2 "user@example.com" "mx.example.com"
    (fun k => if k = 1 then AttemptOutcome.timeoutErr
              else AttemptOutcome.completed
                (classifyRcpt "user@example.com" "mx.example.com" 550 "User unknown"))
    (by decide) (by decide)
  refine ⟨?_, h.2.1⟩
  apply h.2.2.2.1 2 (by decide) (by decide)
  · intro j hj1 hj2
    have hj : j = 1 := by omega
    subst hj
    rfl
  · rfl

/-- Embeds one parsed record of the JSONL monitoring log written by
`log_smtp_check` (logger.py lines 95-150).  Timestamps are rationals on an
absolute time axis; malformed lines (skipped by the reader at logger.py lines
226-227) are not represented. -/
structure LogEntry where
  timestamp : ℚ
  email : String
  domain : String
  mxHost : String
  status : String
  attempts : Nat
  responseTimeMs : ℚ
  success : Bool
  error : Option String
deriving DecidableEq

/-- Embeds the entry construction of `log_smtp_check` (logger.py lines
134-146): the stored success flag is `status in ('Valid', 'Catch-all (Risky)')`. -/
def log_smtp_check (timestamp : ℚ) (email mxHost status : String)
    (attempts : Nat) (responseTimeMs : ℚ) (error : Option String) : LogEntry :=
  { timestamp := timestamp, email := email,
    domain := if (splitOnChar '@' email.data).length ≥ 2 then emailDomain email else "",
    mxHost := mxHost, status := status, attempts := attempts,
    responseTimeMs := responseTimeMs,
    success := status == "Valid" || status == "Catch-all (Risky)",
    error := error }

/-- The time filter of `get_smtp_stats` (logger.py lines 207-209): entries
strictly older than the cutoff are skipped. -/
def inWindow (cutoff : ℚ) (es : List LogEntry) : List LogEntry :=
  es.filter (fun e => !(decide (e.timestamp < cutoff)))

/-- The distinct MX hosts of the filtered entries, in first-occurrence order
(the Python defaultdict keeps dict insertion order, logger.py line 212). -/
def hostsOf (es : List LogEntry) : List String :=
  es.foldl (fun acc e => if e.mxHost ∈ acc then acc else acc ++ [e.mxHost]) []

def hostEntries (es : List LogEntry) (h : String) : List LogEntry :=
  es.filter (fun e => e.mxHost == h)

/-- `stats['total']` of one host (logger.py line 214). -/
def hostTotal (es : List LogEntry) (h : String) : Nat :=
  (hostEntries es h).length

/-- `stats['success']` of one host (logger.py lines 217-218). -/
def hostSuccessCount (es : List LogEntry) (h : String) : Nat :=
  ((hostEntries es h).filter (fun e => e.success)).length

/-- `stats['total_response_time']` of one host (logger.py line 221). -/
def hostRespSum (es : List LogEntry) (h : String) : ℚ :=
  ((hostEntries es h).map (fun e => e.responseTimeMs)).sum

/-- The `needs_rotation` flag computed during log replay (logger.py lines
238-246): `success_rate < 50 or avg_response_time > 5000`, with no minimum
sample size. -/
def log_needs_rotation (es : List LogEntry) (h : String) : Bool :=
  decide ((hostSuccessCount es h : ℚ) / (hostTotal es h : ℚ) * 100 < 50 ∨
          (5000 : ℚ) < hostRespSum es h / (hostTotal es h : ℚ))

/-- The `rotation_needed` list returned by `get_smtp_stats` (logger.py lines
250-262): per-host stats sorted by volume descending, then filtered by the
rotation flag. -/
def rotation_needed (es : List LogEntry) (cutoff : ℚ) : List String :=
  ((hostsOf (inWindow cutoff es)).mergeSort
      (fun a b => decide (hostTotal (inWindow cutoff es) b ≤
                          hostTotal (inWindow cutoff es) a))).filter
    (log_needs_rotation (inWindow cutoff es))

/-- C9: the log-replay statistics flag a host (with at least one in-window
entry) for rotation exactly when its in-window success rate is below 50% or
its in-window average response time exceeds 5000 ms; no minimum sample size
is enforced, so a log holding a single failed check inside the window flags
its host. -/
theorem c9_log_rotation (es : List LogEntry) (cutoff : ℚ) (h : String)
    (hm : h ∈ hostsOf (inWindow cutoff es)) :
    (h ∈ rotation_needed es cutoff ↔
      ((hostSuccessCount (inWindow cutoff es) h : ℚ) /
          (hostTotal (inWindow cutoff es) h : ℚ) * 100 < 50 ∨
        (5000 : ℚ) < hostRespSum (inWindow cutoff es) h /
          (hostTotal (inWindow cutoff es) h : ℚ))) ∧
    (∀ (e : LogEntry) (c : ℚ), c ≤ e.timestamp → e.success = false →
      e.mxHost ∈ rotation_needed [e] c) := by
  constructor
  · rw [rotation_needed, List.mem_filter, List.mem_mergeSort]
    rw [log_needs_rotation, decide_eq_true_iff]
    constructor
    · intro hin
      exact hin.2
    · intro hrate
      exact ⟨hm, hrate⟩
  · intro e c hc hs
    rw [rotation_needed, List.mem_filter, List.mem_mergeSort]
    have hw : inWindow c [e] = [e] := by
      simp [inWindow, not_lt.mpr hc]
    rw [hw]
    constructor
    · simp [hostsOf]
    · rw [log_needs_rotation, decide_eq_true_iff]
      left
      have he : hostEntries [e] e.mxHost = [e] := by
        simp [hostEntries]
      rw [hostSuccessCount, hostTotal, he]
      simp [hs]

/-- Witness for C9 at a concrete log: a single failed timeout check inside
the window flags its host. -/
theorem c9_log_rotation_witness :
    "mx1.example.com" ∈ rotation_needed
      [{ timestamp := 10, email := "a@b.com", domain := "b.com",
         mxHost := "mx1.example.com", status := "Timeout (Unknown)",
         attempts := 3, responseTimeMs := 100, success := false,
         error := some "timed out" }] 0 := by
  have h := c9_log_rotation
    [{ timestamp := 10, email := "a@b.com", domain := "b.com",
       mxHost := "mx1.example.com", status := "Timeout (Unknown)",
       attempts := 3, responseTimeMs := 100, success := false,
       error := some "timed out" }] 0 "mx1.example.com"
    (by simp [hostsOf, inWindow])
  exact h.2
    { timestamp := 10, email := "a@b.com", domain := "b.com",
      mxHost := "mx1.example.com", status := "Timeout (Unknown)",
      attempts := 3, responseTimeMs := 100, success := false,
      error := some "timed out" } 0 (by norm_num) rfl

/-- Embeds Python's `str.strip()` (default whitespace) on a character list. -/
def trimChars (l : List Char) : List Char :=
  ((l.dropWhile Char.isWhitespace).reverse.dropWhile Char.isWhitespace).reverse

/-- Embeds `email.strip().lower()` (email_validator.py line 516). -/
def stripLower (s : String) : String :=
  String.mk ((trimChars s.data).map Char.toLower)

/-- Character class `[a-zA-Z0-9._%+-]` of the local part of the validation
pattern (email_validator.py line 249). -/
def isC1 (c : Char) : Bool :=
  c.isAlpha || c.isDigit || c == '.' || c == '_' || c == '%' || c == '+' || c == '-'

/-- Character class `[a-zA-Z0-9.-]` of the domain part of the pattern. -/
def isC2 (c : Char) : Bool :=
  c.isAlpha || c.isDigit || c == '.' || c == '-'

/-- The final label `[a-zA-Z]{2,}$` of the pattern. -/
def tldOk (cs : List Char) : Bool :=
  decide (2 ≤ cs.length) && cs.all (fun c => c.isAlpha)

/-- Matches `[a-zA-Z0-9.-]*\.[a-zA-Z]{2,}$` with the regex engine's
backtracking explored as a disjunction. -/
def domainTail : List Char → Bool
  | [] => false
  | c :: cs => (c == '.' && tldOk cs) || (isC2 c && domainTail cs)

/-- Matches `[a-zA-Z0-9.-]+\.[a-zA-Z]{2,}$`. -/
def domainPart : List Char → Bool
  | [] => false
  | c :: cs => isC2 c && domainTail cs

/-- Embeds `validate_syntax` (email_validator.py lines 247-252):
`re.match` of `^[a-zA-Z0-9._%+-]+@[a-zA-Z0-9.-]+\.[a-zA-Z]{2,}$` against the
stripped string.  Since `@` belongs to neither character class, the local
part of any match is exactly the maximal leading run of local-part
characters. -/
def validateSyntax (email : String) : Bool :=
  let s := trimChars email.data
  let l := s.takeWhile isC1
  match s.drop l.length with
  | '@' :: d => !l.isEmpty && domainPart d
  | _ => false

/-- Embeds `get_mx_records` (email_validator.py lines 254-270) over a DNS
collaborator: `none` stands for the NXDOMAIN / NoAnswer / NoNameservers /
timeout exception cases, all collapsed to the empty list; a result is sorted
by `(preference, exchange)`. -/
def get_mx_records (dns : String → Option (List (Nat × String)))
    (domain : String) : List (Nat × String) :=
  match dns domain with
  | none => []
  | some recs =>
      recs.mergeSort (fun a b =>
        decide (a.1 < b.1 ∨ (a.1 = b.1 ∧ a.2 ≤ b.2)))

/-- Embeds `validate_single` (email_validator.py lines 508-544) as the pure
per-address pipeline value: normalise, syntax-check, resolve MX, then run
the retry orchestrator against the lowest-priority host.  The semaphore
around the body is modelled separately by the batch scheduler below. -/
def validate_single (maxR : Nat) (base : ℚ)
    (dns : String → Option (List (Nat × String)))
    (probe : String → Nat → AttemptOutcome) (email : String) : ValidationResult :=
  let e := stripLower email
  if validateSyntax e then
    let domain := emailDomain e
    match get_mx_records dns domain with
    | [] => { email := e, status := .noMx,
              details := "No MX records found for domain" }
    | (_, host) :: _ => (smtp_verify_with_retry maxR base e host (probe e)).result
  else
    { email := e, status := .invalidSyntax, details := "Invalid email format" }

/-- Phase of one pipeline task under the cooperative scheduler: `pending`
has not yet acquired its semaphore permit (`async with self.semaphore`,
email_validator.py line 515); `active` holds the permit while the whole body
— syntax, MX, SMTP retries — runs (abstracted as a number of work steps);
`finished` has released the permit.  `v` is the deterministic record the
pipeline delivers. -/
inductive TaskPhase
  | pending (work : Nat) (v : ValidationResult)
  | active (workLeft : Nat) (v : ValidationResult)
  | finished (v : ValidationResult)
deriving DecidableEq

def isActiveB : TaskPhase → Bool
  | .active _ _ => true
  | _ => false

def isFinishedB : TaskPhase → Bool
  | .finished _ => true
  | _ => false

def taskValue : TaskPhase → ValidationResult
  | .pending _ v => v
  | .active _ v => v
  | .finished v => v

/-- State of one batch run: the tasks spawned by `validate_batch`
(email_validator.py lines 546-571), the free permits of the shared
`asyncio.Semaphore(max_concurrent)` (line 239), and the result slots that
`asyncio.gather` fills at each task's own index. -/
structure BatchState where
  tasks : List TaskPhase
  permits : Nat
  results : List (Option ValidationResult)
deriving DecidableEq

def countActive (ts : List TaskPhase) : Nat := ts.countP isActiveB

/-- One cooperative scheduling step offered to task `i`: a pending task may
start only when a permit is free; an active task advances; an active task
with no work left finishes, releasing its permit and storing its record at
slot `i`.  Any other choice (blocked or completed task, bad index) is a
no-op. -/
def stepTask (s : BatchState) (i : Nat) : BatchState :=
  match s.tasks[i]? with
  | some (.pending w v) =>
      match s.permits with
      | 0 => s
      | p + 1 => { s with tasks := s.tasks.set i (.active w v), permits := p }
  | some (.active 0 v) =>
      { tasks := s.tasks.set i (.finished v), permits := s.permits + 1,
        results := s.results.set i (some v) }
  | some (.active (w+1) v) => { s with tasks := s.tasks.set i (.active w v) }
  | _ => s

/-- Runs a whole schedule (an arbitrary interleaving of task steps). -/
def execSchedule (s : BatchState) : List Nat → BatchState
  | [] => s
  | i :: rest => execSchedule (stepTask s i) rest

/-- Embeds the start of `validate_batch` (email_validator.py lines 559-568):
one pipeline task per input address, in input order, with `asyncio.gather`'s
result slots all empty and all `max_concurrent` permits free.  `works`
assigns each task an arbitrary duration in scheduler steps. -/
def validate_batch_init (maxR : Nat) (base : ℚ) (maxConcurrent : Nat)
    (dns : String → Option (List (Nat × String)))
    (probe : String → Nat → AttemptOutcome)
    (emails : List String) (works : List Nat) : BatchState :=
  { tasks := List.zipWith
      (fun email w => TaskPhase.pending w (validate_single maxR base dns probe email))
      emails works,
    permits := maxConcurrent,
    results := List.replicate emails.length none }

def allFinishedB (s : BatchState) : Bool := s.tasks.all isFinishedB

theorem countP_set_eq (p : TaskPhase → Bool) :
    ∀ (l : List TaskPhase) (i : Nat) (t x : TaskPhase), l[i]? = some t →
      (l.set i x).countP p + (if p t then 1 else 0) =
        l.countP p + (if p x then 1 else 0) := by
  intro l
  induction l with
  | nil => intro i t x h; simp at h
  | cons a l ih =>
    intro i t x h
    cases i with
    | zero =>
      simp only [List.getElem?_cons_zero, Option.some.injEq] at h
      subst h
      simp only [List.set_cons_zero, List.countP_cons]
      omega
    | succ i =>
      simp only [List.getElem?_cons_succ] at h
      simp only [List.set_cons_succ, List.countP_cons]
      have := ih i t x h
      omega

theorem stepTask_active_permits (s : BatchState) (i : Nat) :
    countActive (stepTask s i).tasks + (stepTask s i).permits =
      countActive s.tasks + s.permits := by
  unfold stepTask
  cases h : s.tasks[i]? with
  | none => rfl
  | some t =>
    cases t with
    | pending w v =>
      cases hp : s.permits with
      | zero => dsimp only; omega
      | succ p =>
        dsimp only
        have hc := countP_set_eq isActiveB s.tasks i _ (TaskPhase.active w v) h
        simp [isActiveB] at hc
        simp only [countActive]
        omega
    | active w v =>
      cases w with
      | zero =>
        dsimp only
        have hc := countP_set_eq isActiveB s.tasks i _ (TaskPhase.finished v) h
        simp [isActiveB] at hc
        simp only [countActive]
        omega
      | succ w' =>
        dsimp only
        have hc := countP_set_eq isActiveB s.tasks i _ (TaskPhase.active w' v) h
        simp [isActiveB] at hc
        simp only [countActive]
        omega
    | finished v => rfl

theorem execSchedule_active_permits (sched : List Nat) : ∀ s : BatchState,
    countActive (execSchedule s sched).tasks + (execSchedule s sched).permits =
      countActive s.tasks + s.permits := by
  induction sched with
  | nil => intro s; rfl
  | cons i rest ih =>
    intro s
    simp only [execSchedule]
    rw [ih (stepTask s i), stepTask_active_permits]

theorem countActive_init (g : String → ValidationResult) :
    ∀ (emails : List String) (works : List Nat),
      countActive (List.zipWith (fun e w => TaskPhase.pending w (g e)) emails works)
        = 0 := by
  intro emails
  induction emails with
  | nil => intro works; rfl
  | cons e emails ih =>
    intro works
    cases works with
    | nil => rfl
    | cons w works =>
      simp only [List.zipWith_cons_cons, countActive, List.countP_cons]
      have := ih works
      simp only [countActive] at this
      simp [this, isActiveB]

/-- C10: with the permit pool capped at `max_concurrent`, no point of any
batch schedule has more than `max_concurrent` simultaneously active
pipelines: each pipeline acquires one permit before any of its steps run and
releases it only when it finishes. -/
theorem c10_concurrency_bound (maxR : Nat) (base : ℚ) (maxConcurrent : Nat)
    (dns : String → Option (List (Nat × String)))
    (probe : String → Nat → AttemptOutcome)
    (emails : List String) (works : List Nat) (sched : List Nat) :
    countActive (execSchedule
      (validate_batch_init maxR base maxConcurrent dns probe emails works)
      sched).tasks ≤ maxConcurrent := by
  have h := execSchedule_active_permits sched
    (validate_batch_init maxR base maxConcurrent dns probe emails works)
  have h0 : countActive
      (validate_batch_init maxR base maxConcurrent dns probe emails works).tasks = 0 :=
    countActive_init (validate_single maxR base dns probe) emails works
  have h1 : (validate_batch_init maxR base maxConcurrent dns probe emails works).permits
      = maxConcurrent := rfl
  omega

/-- Invariant tying the scheduler state to the per-address pipeline values
`vs`: slot `i` of the gather result list holds `vs[i]` exactly when task `i`
has finished, and `none` before that. -/
def ResultsInv (vs : List ValidationResult) (s : BatchState) : Prop :=
  s.tasks.length = vs.length ∧
  s.results.length = vs.length ∧
  (∀ (i : Nat) (t : TaskPhase), s.tasks[i]? = some t → vs[i]? = some (taskValue t)) ∧
  (∀ (i : Nat) (t : TaskPhase), s.tasks[i]? = some t →
    s.results[i]? = some (if isFinishedB t then some (taskValue t) else none))

theorem stepTask_results_inv (vs : List ValidationResult) (s : BatchState) (i : Nat)
    (h : ResultsInv vs s) : ResultsInv vs (stepTask s i) := by
  obtain ⟨hlt, hlr, hval, hres⟩ := h
  unfold stepTask
  cases h1 : s.tasks[i]? with
  | none => exact ⟨hlt, hlr, hval, hres⟩
  | some t =>
    have hilt : i < s.tasks.length := by
      rcases Nat.lt_or_ge i s.tasks.length with hi | hi
      · exact hi
      · rw [List.getElem?_eq_none hi] at h1; simp at h1
    cases t with
    | pending w v =>
      cases s.permits with
      | zero => exact ⟨hlt, hlr, hval, hres⟩
      | succ p =>
        refine ⟨by simpa using hlt, hlr, ?_, ?_⟩
        · intro j t' hj
          rw [List.getElem?_set] at hj
          by_cases hij : i = j
          · subst hij
            rw [if_pos rfl, if_pos hilt] at hj
            injection hj with hj
            subst hj
            have := hval i _ h1
            simpa [taskValue] using this
          · rw [if_neg hij] at hj
            exact hval j t' hj
        · intro j t' hj
          rw [List.getElem?_set] at hj
          by_cases hij : i = j
          · subst hij
            rw [if_pos rfl, if_pos hilt] at hj
            injection hj with hj
            subst hj
            have := hres i _ h1
            simpa [isFinishedB] using this
          · rw [if_neg hij] at hj
            exact hres j t' hj
    | active w v =>
      cases w with
      | zero =>
        have hjlt : i < s.results.length := by omega
        refine ⟨by simpa using hlt, by simpa using hlr, ?_, ?_⟩
        · intro j t' hj
          rw [List.getElem?_set] at hj
          by_cases hij : i = j
          · subst hij
            rw [if_pos rfl, if_pos hilt] at hj
            injection hj with hj
            subst hj
            have := hval i _ h1
            simpa [taskValue] using this
          · rw [if_neg hij] at hj
            exact hval j t' hj
        · intro j t' hj
          rw [List.getElem?_set] at hj
          by_cases hij : i = j
          · subst hij
            rw [if_pos rfl, if_pos hilt] at hj
            injection hj with hj
            subst hj
            rw [List.getElem?_set, if_pos rfl, if_pos hjlt]
            simp [isFinishedB, taskValue]
          · rw [if_neg hij] at hj
            rw [List.getElem?_set, if_neg hij]
            exact hres j t' hj
      | succ w' =>
        refine ⟨by simpa using hlt, hlr, ?_, ?_⟩
        · intro j t' hj
          rw [List.getElem?_set] at hj
          by_cases hij : i = j
          · subst hij
            rw [if_pos rfl, if_pos hilt] at hj
            injection hj with hj
            subst hj
            have := hval i _ h1
            simpa [taskValue] using this
          · rw [if_neg hij] at hj
            exact hval j t' hj
        · intro j t' hj
          rw [List.getElem?_set] at hj
          by_cases hij : i = j
          · subst hij
            rw [if_pos rfl, if_pos hilt] at hj
            injection hj with hj
            subst hj
            have := hres i _ h1
            simpa [isFinishedB] using this
          · rw [if_neg hij] at hj
            exact hres j t' hj
    | finished v => exact ⟨hlt, hlr, hval, hres⟩

theorem execSchedule_results_inv (vs : List ValidationResult) (sched : List Nat) :
    ∀ s : BatchState, ResultsInv vs s → ResultsInv vs (execSchedule s sched) := by
  induction sched with
  | nil => intro s h; exact h
  | cons i rest ih =>
    intro s h
    exact ih (stepTask s i) (stepTask_results_inv vs s i h)

theorem init_results_inv (maxR : Nat) (base : ℚ) (maxConcurrent : Nat)
    (dns : String → Option (List (Nat × String)))
    (probe : String → Nat → AttemptOutcome)
    (emails : List String) (works : List Nat)
    (hw : works.length = emails.length) :
    ResultsInv (emails.map (validate_single maxR base dns probe))
      (validate_batch_init maxR base maxConcurrent dns probe emails works) := by
  refine ⟨?_, ?_, ?_, ?_⟩
  · simp [validate_batch_init, hw]
  · simp [validate_batch_init]
  · intro i t ht
    simp only [validate_batch_init] at ht
    rw [List.getElem?_zipWith] at ht
    cases he : emails[i]? with
    | none => rw [he] at ht; simp at ht
    | some e =>
      cases hwk : works[i]? with
      | none => rw [he, hwk] at ht; simp at ht
      | some w =>
        rw [he, hwk] at ht
        injection ht with ht
        subst ht
        simp [List.getElem?_map, he, taskValue]
  · intro i t ht
    simp only [validate_batch_init] at ht ⊢
    rw [List.getElem?_zipWith] at ht
    cases he : emails[i]? with
    | none => rw [he] at ht; simp at ht
    | some e =>
      cases hwk : works[i]? with
      | none => rw [he, hwk] at ht; simp at ht
      | some w =>
        rw [he, hwk] at ht
        injection ht with ht
        subst ht
        have hi : i < emails.length := by
          rcases Nat.lt_or_ge i emails.length with hi | hi
          · exact hi
          · rw [List.getElem?_eq_none hi] at he; simp at he
        simp [List.getElem?_replicate, hi, isFinishedB]

/-- C8: for every schedule of a batch, the gather result list has exactly one
slot per input address; and once every pipeline has finished, slot `i` holds
precisely the record of the `i`-th input address — input order is preserved
regardless of completion order. -/
theorem c8_order_preservation (maxR : Nat) (base : ℚ) (maxConcurrent : Nat)
    (dns : String → Option (List (Nat × String)))
    (probe : String → Nat → AttemptOutcome)
    (emails : List String) (works : List Nat) (sched : List Nat)
    (hw : works.length = emails.length) :
    (execSchedule
      (validate_batch_init maxR base maxConcurrent dns probe emails works)
      sched).results.length = emails.length ∧
    (allFinishedB (execSchedule
        (validate_batch_init maxR base maxConcurrent dns probe emails works)
        sched) = true →
      (execSchedule
        (validate_batch_init maxR base maxConcurrent dns probe emails works)
        sched).results =
        emails.map (fun e => some (validate_single maxR base dns probe e))) := by
  have hinv := execSchedule_results_inv
    (emails.map (validate_single maxR base dns probe)) sched
    (validate_batch_init maxR base maxConcurrent dns probe emails works)
    (init_results_inv maxR base maxConcurrent dns probe emails works hw)
  obtain ⟨hlt, hlr, hval, hres⟩ := hinv
  have hml : (emails.map (validate_single maxR base dns probe)).length =
      emails.length := by
    rw [List.length_map]
  constructor
  · rw [hlr, List.length_map]
  · intro hfin
    rw [allFinishedB, List.all_eq_true] at hfin
    apply List.ext_getElem?
    intro j
    cases ht : (execSchedule
        (validate_batch_init maxR base maxConcurrent dns probe emails works)
        sched).tasks[j]? with
    | none =>
      have hj : (execSchedule
          (validate_batch_init maxR base maxConcurrent dns probe emails works)
          sched).tasks.length ≤ j := by
        rcases Nat.lt_or_ge j _ with hj | hj
        · rw [List.getElem?_eq_getElem hj] at ht; simp at ht
        · exact hj
      rw [List.getElem?_eq_none (by omega : (execSchedule
          (validate_batch_init maxR base maxConcurrent dns probe emails works)
          sched).results.length ≤ j)]
      rw [List.getElem?_eq_none]
      rw [List.length_map]
      omega
    | some t =>
      have hfint : isFinishedB t = true := hfin t (List.getElem?_mem ht)
      have h2 := hres j t ht
      rw [hfint] at h2
      simp only [if_true] at h2
      rw [h2]
      have h3 := hval j t ht
      rw [List.getElem?_map] at h3 ⊢
      cases he : emails[j]? with
      | none => rw [he] at h3; simp at h3
      | some e =>
        rw [he] at h3
        simp only [Option.map_some'] at h3 ⊢
        injection h3 with h3
        rw [h3]

/-- Witness for C8 at a concrete batch: one address, one permit, a schedule
that starts and then finishes the task; the result list has the single
pipeline record at index 0. -/
theorem c8_order_preservation_witness :
    (execSchedule
      (validate_batch_init 3 2 1 (fun _ => none)
        (fun _ _ => AttemptOutcome.timeoutErr) ["a@b.com"] [0]) [0, 0]).results.length
      = 1 ∧
    (execSchedule
      (validate_batch_init 3 2 1 (fun _ => none)
        (fun _ _ => AttemptOutcome.timeoutErr) ["a@b.com"] [0]) [0, 0]).results =
      ["a@b.com"].map (fun e => some (validate_single 3 2 (fun _ => none)
        (fun _ _ => AttemptOutcome.timeoutErr) e)) := by
  have h := c8_order_preservation 3 2 1 (fun _ => none)
    (fun _ _ => AttemptOutcome.timeoutErr) ["a@b.com"] [0] [0, 0] rfl
  refine ⟨h.1, h.2 ?_⟩
  decide
